import Mathlib

/-!
Shallow embedding of the StudyVerseAI flashcard spaced-repetition scheduler.

The source of the embedding:
* the `Flashcard` mongoose model: its `stats` and `reviewData` sub-documents,
  the `successRate` virtual, and the `updateReviewData` method implementing
  the SM-2-style algorithm;
* the flashcard review route handler `POST /card/:id/review`, which validates
  the quality score, conditionally folds the response time into the running
  mean, and then calls `updateReviewData`;
* the dashboard aggregation computing `flashcardStats.averageSuccessRate`.

Numbers held in JS `Number` fields are modelled as exact rationals (`ℚ`)
where fractional values arise (ease factor, average response time,
success-rate intermediates) and as integers where the code only ever stores
integers (counters, the interval, millisecond timestamps).  `Math.round` is
`jsRound` below: JavaScript rounds half-way cases up, i.e. `⌊x + 1/2⌋`.
-/

/-- JavaScript `Math.round` on an exact rational: round half up. -/
def jsRound (x : ℚ) : ℤ := (x + 1/2).floor

/-- Unfolding lemma: `jsRound x` is the floor of `x + 1/2`. -/
theorem jsRound_eq_floor (x : ℚ) : jsRound x = ⌊x + 1/2⌋ := by
  rw [jsRound, Rat.floor_def' (x + 1/2), Rat.floor_def]

/-- The `stats` sub-document of a flashcard. -/
structure Stats where
  timesReviewed : ℕ
  correctAnswers : ℕ
  incorrectAnswers : ℕ
  lastReviewed : Option ℤ
  averageResponseTime : ℚ
deriving Repr, DecidableEq

/-- The `reviewData` sub-document of a flashcard (spaced-repetition state). -/
structure ReviewData where
  interval : ℤ
  easeFactor : ℚ
  nextReview : ℤ
  reviewCount : ℕ
deriving Repr, DecidableEq

/-- The parts of a flashcard document that the scheduler reads and writes. -/
structure Flashcard where
  stats : Stats
  reviewData : ReviewData
deriving Repr, DecidableEq

/-- A flashcard as created with the schema defaults: all stats zero,
`interval = 1`, `easeFactor = 2.5`, `reviewCount = 0`, `nextReview = now`
(the creation time is taken as timestamp 0 here). -/
def freshCard : Flashcard :=
  { stats := { timesReviewed := 0, correctAnswers := 0, incorrectAnswers := 0,
               lastReviewed := none, averageResponseTime := 0 }
    reviewData := { interval := 1, easeFactor := 5/2, nextReview := 0,
                    reviewCount := 0 } }

/-- The `successRate` virtual:
`timesReviewed == 0 ? 0 : Math.round(correctAnswers / timesReviewed * 100)`. -/
def successRate (c : Flashcard) : ℤ :=
  if c.stats.timesReviewed = 0 then 0
  else jsRound ((c.stats.correctAnswers : ℚ) / (c.stats.timesReviewed : ℚ) * 100)

/-- The method `flashcardSchema.methods.updateReviewData(quality)`, with the wall clock
passed explicitly as `now` (milliseconds).  Mirrors the method body
statement by statement: bump `timesReviewed`, `lastReviewed`, `reviewCount`;
branch on `quality >= 3`; clamp the ease factor at `1.3`; recompute
`nextReview = Date.now() + interval * 24*60*60*1000`. -/
def updateReviewData (card : Flashcard) (quality : ℤ) (now : ℤ) : Flashcard :=
  let s1 : Stats :=
    { card.stats with
        timesReviewed := card.stats.timesReviewed + 1
        lastReviewed := some now }
  let r1 : ReviewData :=
    { card.reviewData with reviewCount := card.reviewData.reviewCount + 1 }
  let sr2 : Stats × ReviewData :=
    if 3 ≤ quality then
      let s2 := { s1 with correctAnswers := s1.correctAnswers + 1 }
      let newInterval : ℤ :=
        if r1.reviewCount = 1 then 1
        else if r1.reviewCount = 2 then 6
        else jsRound ((r1.interval : ℚ) * r1.easeFactor)
      let r2 := { r1 with
                    interval := newInterval
                    easeFactor := r1.easeFactor +
                      (1/10 - (5 - (quality : ℚ)) * (8/100 + (5 - (quality : ℚ)) * (2/100))) }
      (s2, r2)
    else
      let s2 := { s1 with incorrectAnswers := s1.incorrectAnswers + 1 }
      (s2, { r1 with reviewCount := 0, interval := 1 })
  let r3 : ReviewData :=
    if sr2.2.easeFactor < 13/10 then { sr2.2 with easeFactor := 13/10 } else sr2.2
  let r4 : ReviewData :=
    { r3 with nextReview := now + r3.interval * (24 * 60 * 60 * 1000) }
  { card with stats := sr2.1, reviewData := r4 }

/-- The error the review route reports for an out-of-range quality
(`res.status(400) ... 'Quality must be between 0 and 5'`). -/
inductive ReviewError where
  | invalidQuality
deriving Repr, DecidableEq

/-- The handler of `POST /card/:id/review`, given the card the store lookup
found.  `quality` is `none` when the request body omits it (`undefined`).
Returns the HTTP-level outcome together with the state of the card document
after the handler ran: on validation failure the handler returns before any
statement touches the card, so the card state is the input unchanged.

The response-time update is guarded by JS truthiness (`if (responseTime)`),
so a provided value of `0` skips the update exactly like an absent one. -/
def reviewEndpoint (card : Flashcard) (quality : Option ℤ)
    (responseTime : Option ℚ) (now : ℤ) :
    Except ReviewError Flashcard × Flashcard :=
  match quality with
  | none => (.error .invalidQuality, card)
  | some q =>
    if q < 0 ∨ 5 < q then (.error .invalidQuality, card)
    else
      let card1 : Flashcard :=
        match responseTime with
        | some rt =>
          if rt ≠ 0 then
            let newTotalTime :=
              card.stats.averageResponseTime * (card.stats.timesReviewed : ℚ) + rt
            { card with stats :=
                { card.stats with
                    averageResponseTime :=
                      newTotalTime / ((card.stats.timesReviewed : ℚ) + 1) } }
          else card
        | none => card
      let card2 := updateReviewData card1 q now
      (.ok card2, card2)

/-- The dashboard aggregate `flashcardStats.averageSuccessRate`: `0` when
the user has no cards, else `Math.round` of the mean of `successRate` over
every card returned by the store (reviewed or not), the sum built by
`reduce((sum, rate) => sum + rate, 0)`. -/
def averageSuccessRate (cards : List Flashcard) : ℤ :=
  if cards.length > 0 then
    jsRound ((((cards.map successRate).foldl (· + ·) 0 : ℤ) : ℚ) / (cards.length : ℚ))
  else 0

/-- The spec's words for the aggregate, for comparison with the code's
`averageSuccessRate`: the mean of `successRate` over only the cards with
`timesReviewed > 0`, and `0` when no card has been reviewed. -/
def averageSuccessRateSpec (cards : List Flashcard) : ℤ :=
  let reviewed := cards.filter (fun c => 0 < c.stats.timesReviewed)
  if reviewed.length > 0 then
    jsRound ((((reviewed.map successRate).foldl (· + ·) 0 : ℤ) : ℚ) / (reviewed.length : ℚ))
  else 0

/-- The documented invariants of a card: consistent answer counts, ease
factor floored at 1.3, interval at least one day. -/
def cardInv (c : Flashcard) : Prop :=
  c.stats.correctAnswers + c.stats.incorrectAnswers = c.stats.timesReviewed ∧
  13/10 ≤ c.reviewData.easeFactor ∧
  1 ≤ c.reviewData.interval

example : (updateReviewData freshCard 5 0).reviewData.easeFactor = 13/5 := by
  norm_num [updateReviewData, freshCard]
example : (updateReviewData freshCard 5 0).reviewData.interval = 1 := by
  norm_num [updateReviewData, freshCard]
example :
    (updateReviewData (updateReviewData freshCard 5 0) 4 0).reviewData.interval = 6 := by
  norm_num [updateReviewData, freshCard]
example :
    (updateReviewData (updateReviewData freshCard 5 0) 4 0).reviewData.easeFactor
      = 13/5 := by norm_num [updateReviewData, freshCard]

/-! Helper lemmas. -/

/-- Rounding a rational at least `13/10` yields an integer at least `1`. -/
theorem one_le_jsRound {x : ℚ} (hx : 13/10 ≤ x) : 1 ≤ jsRound x := by
  rw [jsRound_eq_floor, Int.le_floor]
  push_cast
  linarith

/-- Frame lemma: `updateReviewData` never touches `averageResponseTime`. -/
theorem updateReviewData_averageResponseTime (card : Flashcard) (q now : ℤ) :
    (updateReviewData card q now).stats.averageResponseTime =
      card.stats.averageResponseTime := by
  simp only [updateReviewData]
  split <;> rfl

/-- Counting lemma: `updateReviewData` always increments `timesReviewed` by one. -/
theorem updateReviewData_timesReviewed (card : Flashcard) (q now : ℤ) :
    (updateReviewData card q now).stats.timesReviewed =
      card.stats.timesReviewed + 1 := by
  simp only [updateReviewData]
  split <;> rfl

/-- C9 helper shape: the success branch of `updateReviewData`, field by field. -/
theorem updateReviewData_success (card : Flashcard) (q now : ℤ) (hq : 3 ≤ q) :
    (updateReviewData card q now).stats.correctAnswers
        = card.stats.correctAnswers + 1 ∧
    (updateReviewData card q now).stats.incorrectAnswers
        = card.stats.incorrectAnswers ∧
    (updateReviewData card q now).reviewData.reviewCount
        = card.reviewData.reviewCount + 1 ∧
    (updateReviewData card q now).reviewData.interval
        = (if card.reviewData.reviewCount + 1 = 1 then 1
           else if card.reviewData.reviewCount + 1 = 2 then 6
           else jsRound ((card.reviewData.interval : ℚ) * card.reviewData.easeFactor)) := by
  simp only [updateReviewData, if_pos hq]
  refine ⟨?_, ?_, ?_, ?_⟩ <;> (repeat' split) <;> first | rfl | trivial

/-- The failure branch of `updateReviewData`, field by field. -/
theorem updateReviewData_failure (card : Flashcard) (q now : ℤ) (hq : ¬ 3 ≤ q) :
    (updateReviewData card q now).stats.correctAnswers
        = card.stats.correctAnswers ∧
    (updateReviewData card q now).stats.incorrectAnswers
        = card.stats.incorrectAnswers + 1 ∧
    (updateReviewData card q now).reviewData.reviewCount = 0 ∧
    (updateReviewData card q now).reviewData.interval = 1 := by
  simp only [updateReviewData, if_neg hq]
  refine ⟨?_, ?_, ?_, ?_⟩ <;> (repeat' split) <;> first | rfl | trivial

/-- The ease factor after a successful review: the SM-2 delta is added, then
the `1.3` floor is applied. -/
theorem updateReviewData_easeFactor_success (card : Flashcard) (q now : ℤ)
    (hq : 3 ≤ q) :
    (updateReviewData card q now).reviewData.easeFactor =
      (if card.reviewData.easeFactor +
            (1/10 - (5 - (q : ℚ)) * (8/100 + (5 - (q : ℚ)) * (2/100))) < 13/10
       then 13/10
       else card.reviewData.easeFactor +
            (1/10 - (5 - (q : ℚ)) * (8/100 + (5 - (q : ℚ)) * (2/100)))) := by
  simp only [updateReviewData, if_pos hq]
  split <;> rfl

/-- The ease factor after a failed review: untouched by the branch, then the
`1.3` floor is applied. -/
theorem updateReviewData_easeFactor_failure (card : Flashcard) (q now : ℤ)
    (hq : ¬ 3 ≤ q) :
    (updateReviewData card q now).reviewData.easeFactor =
      (if card.reviewData.easeFactor < 13/10 then 13/10
       else card.reviewData.easeFactor) := by
  simp only [updateReviewData, if_neg hq]
  split <;> rfl

/-- Preservation lemma: `updateReviewData` preserves the card invariants. -/
theorem updateReviewData_inv (card : Flashcard) (q now : ℤ) (h : cardInv card) :
    cardInv (updateReviewData card q now) := by
  obtain ⟨h1, h2, h3⟩ := h
  by_cases hq : 3 ≤ q
  · obtain ⟨hc, hi, _, hint⟩ := updateReviewData_success card q now hq
    refine ⟨?_, ?_, ?_⟩
    · rw [hc, hi, updateReviewData_timesReviewed]; omega
    · rw [updateReviewData_easeFactor_success card q now hq]
      split
      · exact le_refl _
      · exact le_of_not_lt (by assumption)
    · rw [hint]
      split
      · norm_num
      · split
        · norm_num
        · apply one_le_jsRound
          have hi1 : (1 : ℚ) ≤ (card.reviewData.interval : ℚ) := by
            exact_mod_cast h3
          nlinarith
  · obtain ⟨hc, hi, hrc, hint⟩ := updateReviewData_failure card q now hq
    refine ⟨?_, ?_, ?_⟩
    · rw [hc, hi, updateReviewData_timesReviewed]; omega
    · rw [updateReviewData_easeFactor_failure card q now hq]
      split
      · exact le_refl _
      · exact le_of_not_lt (by assumption)
    · rw [hint]

/-! Claim theorems. -/

/-- C1: for every card and every quality in `[0, 5]`, a successful review
through the endpoint preserves the invariants
`correctAnswers + incorrectAnswers = timesReviewed`, `easeFactor ≥ 1.3`
and `interval ≥ 1`, assuming they held before the call. -/
theorem review_preserves_invariants (card : Flashcard) (q : ℤ) (rt : Option ℚ)
    (now : ℤ) (hq0 : 0 ≤ q) (hq5 : q ≤ 5) (h : cardInv card) :
    cardInv ((reviewEndpoint card (some q) rt now).2) := by
  have hv : ¬ (q < 0 ∨ 5 < q) := by omega
  cases rt with
  | none =>
      simp only [reviewEndpoint, if_neg hv]
      exact updateReviewData_inv card q now h
  | some r =>
      by_cases hr : r = 0
      · subst hr
        simp only [reviewEndpoint, if_neg hv, ne_eq, not_true_eq_false, if_false]
        exact updateReviewData_inv card q now h
      · simp only [reviewEndpoint, if_neg hv, ne_eq, hr, not_false_eq_true, if_true]
        exact updateReviewData_inv _ q now ⟨h.1, h.2.1, h.2.2⟩

/-- C1 witness: the invariants hold after reviewing a fresh card with
quality 5. -/
theorem review_preserves_invariants_witness :
    cardInv ((reviewEndpoint freshCard (some 5) none 0).2) :=
  review_preserves_invariants freshCard 5 none 0 (by norm_num) (by norm_num)
    ⟨rfl, by norm_num [freshCard], by norm_num [freshCard]⟩

/-- C2: for quality ≥ 3 the review increments `reviewCount`, and the new
interval is 1 when the post-increment `reviewCount` is 1, exactly 6 when it
is 2, and `round(oldInterval * oldEaseFactor)` otherwise, using the values
held before the review. -/
theorem review_success_interval (card : Flashcard) (q now : ℤ) (hq : 3 ≤ q) :
    (updateReviewData card q now).reviewData.reviewCount
        = card.reviewData.reviewCount + 1 ∧
    (card.reviewData.reviewCount + 1 = 1 →
      (updateReviewData card q now).reviewData.interval = 1) ∧
    (card.reviewData.reviewCount + 1 = 2 →
      (updateReviewData card q now).reviewData.interval = 6) ∧
    (2 < card.reviewData.reviewCount + 1 →
      (updateReviewData card q now).reviewData.interval =
        jsRound ((card.reviewData.interval : ℚ) * card.reviewData.easeFactor)) := by
  obtain ⟨-, -, hrc, hi⟩ := updateReviewData_success card q now hq
  refine ⟨hrc, ?_, ?_, ?_⟩
  · intro h1; rw [hi, if_pos h1]
  · intro h2; rw [hi, if_neg (by omega), if_pos h2]
  · intro h3; rw [hi, if_neg (by omega), if_neg (by omega)]

/-- C2 witness: the first success of a streak sets the interval to 1. -/
theorem review_success_interval_witness :
    (updateReviewData freshCard 5 0).reviewData.interval = 1 :=
  (review_success_interval freshCard 5 0 (by norm_num)).2.1 rfl

/-- C3: for quality < 3 the review resets `reviewCount` to 0 and `interval`
to 1 regardless of prior state, increments `incorrectAnswers` by one, and
leaves `correctAnswers` unchanged. -/
theorem review_failure_resets (card : Flashcard) (q now : ℤ)
    (hq0 : 0 ≤ q) (hq : q < 3) :
    (updateReviewData card q now).reviewData.reviewCount = 0 ∧
    (updateReviewData card q now).reviewData.interval = 1 ∧
    (updateReviewData card q now).stats.incorrectAnswers
        = card.stats.incorrectAnswers + 1 ∧
    (updateReviewData card q now).stats.correctAnswers
        = card.stats.correctAnswers := by
  obtain ⟨hc, hi, hrc, hint⟩ := updateReviewData_failure card q now (by omega)
  exact ⟨hrc, hint, hi, hc⟩

/-- C3 witness: a failed review of a fresh card resets the streak. -/
theorem review_failure_resets_witness :
    (updateReviewData freshCard 2 0).reviewData.reviewCount = 0 :=
  (review_failure_resets freshCard 2 0 (by norm_num) (by norm_num)).1

/-- C4: the endpoint rejects any quality outside `[0, 5]` with the
invalid-quality error before touching the card, leaving it unchanged. -/
theorem review_invalid_quality (card : Flashcard) (q : ℤ) (rt : Option ℚ)
    (now : ℤ) (hq : q < 0 ∨ 5 < q) :
    reviewEndpoint card (some q) rt now =
      (Except.error ReviewError.invalidQuality, card) := by
  simp only [reviewEndpoint, if_pos hq]

/-- C4 witness: quality `-1` and quality `6` are both rejected with the
card unchanged. -/
theorem review_invalid_quality_witness :
    reviewEndpoint freshCard (some (-1)) none 0 =
        (Except.error ReviewError.invalidQuality, freshCard) ∧
    reviewEndpoint freshCard (some 6) (some 3) 0 =
        (Except.error ReviewError.invalidQuality, freshCard) :=
  ⟨review_invalid_quality freshCard (-1) none 0 (Or.inl (by norm_num)),
   review_invalid_quality freshCard 6 (some 3) 0 (Or.inr (by norm_num))⟩

/-- C7: the failure branch never changes the ease factor on its own: for
quality < 3 the ease factor stays at its prior value when that value is at
least 1.3, and is raised to exactly 1.3 when it was below. -/
theorem review_failure_easeFactor (card : Flashcard) (q now : ℤ)
    (hq0 : 0 ≤ q) (hq : q < 3) :
    (13/10 ≤ card.reviewData.easeFactor →
      (updateReviewData card q now).reviewData.easeFactor
          = card.reviewData.easeFactor) ∧
    (card.reviewData.easeFactor < 13/10 →
      (updateReviewData card q now).reviewData.easeFactor = 13/10) := by
  rw [updateReviewData_easeFactor_failure card q now (by omega)]
  constructor
  · intro h; rw [if_neg (not_lt.2 h)]
  · intro h; rw [if_pos h]

/-- C7 witness: failing a fresh card (ease factor 2.5) leaves the ease
factor at 2.5. -/
theorem review_failure_easeFactor_witness :
    (updateReviewData freshCard 2 0).reviewData.easeFactor
        = freshCard.reviewData.easeFactor :=
  (review_failure_easeFactor freshCard 2 0 (by norm_num) (by norm_num)).1
    (by norm_num [freshCard])

/-- C9: immediately after any review, `nextReview` is the review time plus
the newly computed interval in days (`interval * 24*60*60*1000` ms), in the
success branch and in the failure branch alike. -/
theorem review_nextReview (card : Flashcard) (q now : ℤ) :
    (updateReviewData card q now).reviewData.nextReview =
      now + (updateReviewData card q now).reviewData.interval
              * (24 * 60 * 60 * 1000) := by
  simp only [updateReviewData]

/-- C5 counterexample: continuing Scenario A with `review(quality=4)` gives
an ease factor of exactly `2.6`, because the delta
`0.1 - (5-4)*(0.08 + (5-4)*0.02)` is zero; the value is not within `0.08`
of the claimed `2.68`. -/
theorem review_scenarioB_ease_counterexample :
    (updateReviewData (updateReviewData freshCard 5 0) 4 0).reviewData.easeFactor
        = 13/5 ∧
    ¬ |(updateReviewData (updateReviewData freshCard 5 0) 4 0).reviewData.easeFactor
        - 268/100| < 8/100 := by
  have h : (updateReviewData (updateReviewData freshCard 5 0) 4 0).reviewData.easeFactor
      = 13/5 := by norm_num [updateReviewData, freshCard]
  refine ⟨h, ?_⟩
  rw [h, show (13:ℚ)/5 - 268/100 = -(8/100) by norm_num, abs_neg,
    abs_of_nonneg (by norm_num : (0:ℚ) ≤ 8/100)]
  norm_num

/-- C5 amended: Scenario A — a fresh card reviewed with quality 5 yields
`reviewCount=1, interval=1, easeFactor=2.6, correctAnswers=1,
timesReviewed=1`; Scenario B — reviewing the result with quality 4 yields
`reviewCount=2, interval=6`, and the ease factor stays exactly `2.6`. -/
theorem review_scenarioAB :
    (updateReviewData freshCard 5 0).reviewData.reviewCount = 1 ∧
    (updateReviewData freshCard 5 0).reviewData.interval = 1 ∧
    (updateReviewData freshCard 5 0).reviewData.easeFactor = 13/5 ∧
    (updateReviewData freshCard 5 0).stats.correctAnswers = 1 ∧
    (updateReviewData freshCard 5 0).stats.timesReviewed = 1 ∧
    (updateReviewData (updateReviewData freshCard 5 0) 4 0).reviewData.reviewCount
        = 2 ∧
    (updateReviewData (updateReviewData freshCard 5 0) 4 0).reviewData.interval
        = 6 ∧
    (updateReviewData (updateReviewData freshCard 5 0) 4 0).reviewData.easeFactor
        = 13/5 := by
  refine ⟨?_, ?_, ?_, ?_, ?_, ?_, ?_, ?_⟩ <;> norm_num [updateReviewData, freshCard]

/-- A card that was reviewed once, correctly: its `successRate` is 100. -/
def reviewedCard : Flashcard :=
  { stats := { timesReviewed := 1, correctAnswers := 1, incorrectAnswers := 0,
               lastReviewed := some 0, averageResponseTime := 0 }
    reviewData := { interval := 1, easeFactor := 13/5, nextReview := 86400000,
                    reviewCount := 1 } }

/-- C6 counterexample: with one fully-correct reviewed card and one
never-reviewed card, the dashboard reports `round((100+0)/2) = 50`, while
the claim's mean over only the reviewed cards would be `100`. -/
theorem averageSuccessRate_counterexample :
    averageSuccessRate [reviewedCard, freshCard] = 50 ∧
    averageSuccessRateSpec [reviewedCard, freshCard] = 100 ∧ (50:ℤ) ≠ 100 := by
  refine ⟨?_, ?_, by norm_num⟩
  · norm_num [averageSuccessRate, successRate, reviewedCard, freshCard,
      jsRound_eq_floor]
  · norm_num [averageSuccessRateSpec, successRate, reviewedCard, freshCard,
      jsRound_eq_floor]

/-- The amended aggregate, phrased from the amended claim: the mean of
`successRate` over all cards of the collection (a never-reviewed card
contributing `0`), rounded to nearest; `0` for an empty collection. -/
def averageSuccessRateAll (cards : List Flashcard) : ℤ :=
  if cards = [] then 0
  else jsRound ((((cards.map successRate).sum : ℤ) : ℚ) / (cards.length : ℚ))

/-- C6 amended: the dashboard aggregate is the rounded mean of `successRate`
over all cards of the collection; it is `0` when no card has been reviewed,
and it agrees with the claim's filtered mean whenever every card of the
collection has been reviewed. -/
theorem averageSuccessRate_all_cards (cards : List Flashcard) :
    averageSuccessRate cards = averageSuccessRateAll cards ∧
    ((∀ c ∈ cards, c.stats.timesReviewed = 0) → averageSuccessRate cards = 0) ∧
    ((∀ c ∈ cards, 0 < c.stats.timesReviewed) →
        averageSuccessRate cards = averageSuccessRateSpec cards) := by
  refine ⟨?_, ?_, ?_⟩
  · rcases cards with _ | ⟨c, cs⟩
    · simp [averageSuccessRate, averageSuccessRateAll]
    · simp [averageSuccessRate, averageSuccessRateAll, List.sum_eq_foldl]
  · intro hall
    unfold averageSuccessRate
    split
    · have hmap : cards.map successRate = List.map (fun _ => (0:ℤ)) cards :=
        List.map_congr_left (fun c hc => by simp [successRate, hall c hc])
      rw [← List.sum_eq_foldl, hmap, List.map_const', List.sum_replicate,
        smul_zero]
      norm_num [jsRound_eq_floor]
    · rfl
  · intro hall
    have hfil : cards.filter (fun c => 0 < c.stats.timesReviewed) = cards :=
      List.filter_eq_self.mpr (fun c hc => by simpa using hall c hc)
    simp only [averageSuccessRateSpec, hfil]
    rfl

/-- C6 amended witness: a lone never-reviewed card reports 0, and on a
collection of reviewed cards the dashboard value matches the filtered
mean. -/
theorem averageSuccessRate_all_cards_witness :
    averageSuccessRate [freshCard] = 0 ∧
    averageSuccessRate [reviewedCard] = averageSuccessRateSpec [reviewedCard] :=
  ⟨(averageSuccessRate_all_cards [freshCard]).2.1
      (fun c hc => by rw [List.mem_singleton] at hc; subst hc; rfl),
   (averageSuccessRate_all_cards [reviewedCard]).2.2
      (fun c hc => by rw [List.mem_singleton] at hc; subst hc; norm_num [reviewedCard])⟩

/-- A card with one prior review and a 10-second average response time. -/
def timedCard : Flashcard :=
  { stats := { timesReviewed := 1, correctAnswers := 1, incorrectAnswers := 0,
               lastReviewed := some 0, averageResponseTime := 10 }
    reviewData := { interval := 1, easeFactor := 5/2, nextReview := 0,
                    reviewCount := 1 } }

/-- C8 counterexample: reviewing `timedCard` with `responseTime = 0`
(provided and non-negative) leaves the average at 10, whereas the claimed
running-mean formula would give `(10*1 + 0)/(1+1) = 5`. -/
theorem review_responseTime_zero_counterexample :
    ((reviewEndpoint timedCard (some 3) (some 0) 0).2).stats.averageResponseTime
        = 10 ∧
    (timedCard.stats.averageResponseTime * (timedCard.stats.timesReviewed : ℚ) + 0)
        / ((timedCard.stats.timesReviewed : ℚ) + 1) = 5 ∧
    (10 : ℚ) ≠ 5 := by
  refine ⟨?_, by norm_num [timedCard], by norm_num⟩
  norm_num [reviewEndpoint, updateReviewData, timedCard]

/-- C8 amended: for every provided positive `responseTime` the endpoint
updates `averageResponseTime` to
`(oldAvg * oldTimesReviewed + responseTime) / (oldTimesReviewed + 1)` with
the pre-increment `timesReviewed`; with `responseTime` absent the average is
unchanged. -/
theorem review_responseTime_running_mean (card : Flashcard) (q : ℤ) (rt : ℚ)
    (now : ℤ) (hq0 : 0 ≤ q) (hq5 : q ≤ 5) (hrt : 0 < rt) :
    ((reviewEndpoint card (some q) (some rt) now).2).stats.averageResponseTime
        = (card.stats.averageResponseTime * (card.stats.timesReviewed : ℚ) + rt)
            / ((card.stats.timesReviewed : ℚ) + 1) ∧
    ((reviewEndpoint card (some q) none now).2).stats.averageResponseTime
        = card.stats.averageResponseTime := by
  have hv : ¬ (q < 0 ∨ 5 < q) := by omega
  constructor
  · simp only [reviewEndpoint, if_neg hv, if_pos hrt.ne']
    rw [updateReviewData_averageResponseTime]
  · simp only [reviewEndpoint, if_neg hv]
    rw [updateReviewData_averageResponseTime]

/-- C8 amended witness: a 4-second answer on `timedCard` moves the average
to `(10*1 + 4)/2 = 7`. -/
theorem review_responseTime_running_mean_witness :
    ((reviewEndpoint timedCard (some 3) (some 4) 0).2).stats.averageResponseTime
        = 7 := by
  rw [(review_responseTime_running_mean timedCard 3 4 0 (by norm_num)
    (by norm_num) (by norm_num)).1]
  norm_num [timedCard]

/-- C10: the endpoint treats a provided `responseTime = 0` exactly like an
absent one (the update is guarded by truthiness), so the whole outcome is
the same and `averageResponseTime` is left unchanged. -/
theorem review_responseTime_zero_ignored (card : Flashcard) (q : Option ℤ)
    (now : ℤ) :
    reviewEndpoint card q (some 0) now = reviewEndpoint card q none now ∧
    ((reviewEndpoint card q (some 0) now).2).stats.averageResponseTime
        = card.stats.averageResponseTime := by
  have hmain : reviewEndpoint card q (some 0) now
      = reviewEndpoint card q none now := by
    cases q with
    | none => rfl
    | some qv =>
      by_cases hv : qv < 0 ∨ 5 < qv
      · simp only [reviewEndpoint, if_pos hv]
      · simp only [reviewEndpoint, if_neg hv, ne_eq, not_true_eq_false,
          if_false]
  refine ⟨hmain, ?_⟩
  rw [hmain]
  cases q with
  | none => rfl
  | some qv =>
    by_cases hv : qv < 0 ∨ 5 < qv
    · simp only [reviewEndpoint, if_pos hv]
    · simp only [reviewEndpoint, if_neg hv]
      exact updateReviewData_averageResponseTime card qv now
